import Mathlib

/-!
Verification of the sec-poc TLS 1.3 client and CA issuer against its
natural-language specification.

The Rust sources are shallowly embedded: byte strings become `List Nat`
(each element a byte value), `u64`/`usize` arithmetic becomes `Nat` with
explicit `% 2 ^ w` where truncation matters, and fallible operations
return `Option` or `Except`.  Cryptographic primitives provided by the
`ring` crate (SHA-256, HMAC-SHA256, AES-128-GCM) are not part of this
repository; they are abstracted as function parameters (`hmac`, `hash`)
or as an `AEAD` structure bundling the authenticated-encryption laws the
library guarantees.  Everything that *is* code of this repository
(`derive_nonce`, `HkdfLabel::to_bytes`, `expand_label`, the key-schedule
state machines, the record encrypt/decrypt wrappers, the handshake
driver's blob processing, and the issuer's `sign_csr`) is translated
statement by statement.
-/

namespace SecPoc

/-- Big-endian bytes of a `u16` value (`u16::to_be_bytes`). -/
def u16_be (n : Nat) : List Nat :=
  [n / 256 % 256, n % 256]

/-- Big-endian bytes of a `u64` value (`u64::to_be_bytes`).  The divisors
are 2^56, 2^48, 2^40, 2^32, 2^24, 2^16, 2^8 written as decimal literals. -/
def u64_be (n : Nat) : List Nat :=
  [n / 72057594037927936 % 256, n / 281474976710656 % 256,
   n / 1099511627776 % 256, n / 4294967296 % 256,
   n / 16777216 % 256, n / 65536 % 256, n / 256 % 256, n % 256]

/-- Reassemble a `u64` from its eight big-endian bytes (left inverse of
`u64_be` on values below 2^64). -/
def u64_of_be : List Nat → Nat
  | [a, b, c, d, e, f, g, h] =>
      a * 72057594037927936 + b * 281474976710656 + c * 1099511627776 +
      d * 4294967296 + e * 16777216 + f * 65536 + g * 256 + h
  | _ => 0

/-- In-place XOR of the second list into the first, as performed by
`nonce.iter_mut().zip(iv).for_each(|(a, b)| *a ^= *b)`: positions of the
first list beyond the second list's length are left unchanged. -/
def xor_into : List Nat → List Nat → List Nat
  | [], _ => []
  | a :: as_, [] => a :: as_
  | a :: as_, b :: bs => (a ^^^ b) :: xor_into as_ bs

/-- `derive_nonce` from src/enc-dec.rs: a 12-byte buffer whose last 8
bytes are the big-endian sequence number, XOR'd with the write IV. -/
def derive_nonce (iv : List Nat) (seq_num : Nat) : List Nat :=
  xor_into (List.replicate 4 0 ++ u64_be seq_num) iv

lemma u64_be_length (n : Nat) : (u64_be n).length = 8 := rfl

lemma u64_of_be_u64_be (n : Nat) (h : n < 2 ^ 64) : u64_of_be (u64_be n) = n := by
  simp only [u64_be, u64_of_be]
  omega

lemma xor_into_xor_into (p iv : List Nat) : xor_into (xor_into p iv) iv = p := by
  induction p generalizing iv with
  | nil => cases iv <;> rfl
  | cons a as_ ih =>
    cases iv with
    | nil => rfl
    | cons b bs =>
      simp only [xor_into, ih, Nat.xor_cancel_right]

lemma xor_into_eq_zipWith (p iv : List Nat) (h : p.length = iv.length) :
    xor_into p iv = List.zipWith (fun a b => a ^^^ b) p iv := by
  induction p generalizing iv with
  | nil => cases iv <;> simp [xor_into]
  | cons a as_ ih =>
    cases iv with
    | nil => simp at h
    | cons b bs =>
      simp only [List.length_cons, Nat.succ.injEq] at h
      simp [xor_into, ih bs h]

/-- Recover the sequence number from a nonce given the IV: undo the XOR,
drop the four zero bytes, reassemble the big-endian u64. -/
lemma derive_nonce_recover (iv : List Nat) (s : Nat) (hs : s < 2 ^ 64) :
    u64_of_be (List.drop 4 (xor_into (derive_nonce iv s) iv)) = s := by
  rw [derive_nonce, xor_into_xor_into]
  have hdrop : List.drop 4 (List.replicate 4 (0 : Nat) ++ u64_be s) = u64_be s := by
    rw [show (4 : Nat) = (List.replicate 4 (0 : Nat)).length by simp]
    exact List.drop_left _ _
  rw [hdrop, u64_of_be_u64_be s hs]

/-- Claim C1: `derive_nonce(iv, seq)` on a 12-byte IV returns the IV
XOR'd with the sequence number left-padded with zeros to 12 bytes in
big-endian; in particular for iv = 00 01 .. 0B and seq = 5 the nonce is
00 01 02 03 04 05 06 07 08 09 0A 0E, and under a fixed IV two distinct
sequence numbers yield distinct nonces. -/
theorem derive_nonce_correct (iv : List Nat) (hiv : iv.length = 12)
    (seq s1 s2 : Nat) (hs1 : s1 < 2 ^ 64) (hs2 : s2 < 2 ^ 64) (hne : s1 ≠ s2) :
    derive_nonce iv seq =
      List.zipWith (fun a b => a ^^^ b) iv (List.replicate 4 0 ++ u64_be seq)
    ∧ (derive_nonce iv seq).length = 12
    ∧ derive_nonce [0, 1, 2, 3, 4, 5, 6, 7, 8, 9, 10, 11] 5 =
        [0, 1, 2, 3, 4, 5, 6, 7, 8, 9, 10, 14]
    ∧ derive_nonce iv s1 ≠ derive_nonce iv s2 := by
  have hlen : (List.replicate 4 (0 : Nat) ++ u64_be seq).length = iv.length := by
    simp [hiv, u64_be_length]
  refine ⟨?_, ?_, by decide, ?_⟩
  · rw [derive_nonce, xor_into_eq_zipWith _ _ hlen]
    exact List.zipWith_comm_of_comm _ Nat.xor_comm _ _
  · rw [derive_nonce, xor_into_eq_zipWith _ _ hlen, List.length_zipWith]
    simp [hiv, u64_be_length]
  · intro heq
    have h1 := derive_nonce_recover iv s1 hs1
    have h2 := derive_nonce_recover iv s2 hs2
    rw [heq, h2] at h1
    exact hne h1.symm

theorem derive_nonce_correct_witness :
    ([0, 1, 2, 3, 4, 5, 6, 7, 8, 9, 10, 11] : List Nat).length = 12
    ∧ derive_nonce [0, 1, 2, 3, 4, 5, 6, 7, 8, 9, 10, 11] 0 ≠
        derive_nonce [0, 1, 2, 3, 4, 5, 6, 7, 8, 9, 10, 11] 1 :=
  ⟨by decide,
   (derive_nonce_correct [0, 1, 2, 3, 4, 5, 6, 7, 8, 9, 10, 11] (by decide)
      5 0 1 (by decide) (by decide) (by decide)).2.2.2⟩

/-! ### HKDF label encoding and HKDF-Expand (src/key-schedule.rs) -/

/-- UTF-8 bytes of the string "tls13 " prepended by `HkdfLabel::to_bytes`. -/
def tls13_bytes : List Nat := [116, 108, 115, 49, 51, 32]

/-- UTF-8 bytes of "derived". -/
def derived_label : List Nat := [100, 101, 114, 105, 118, 101, 100]

/-- UTF-8 bytes of "s ap traffic". -/
def s_ap_traffic_label : List Nat := [115, 32, 97, 112, 32, 116, 114, 97, 102, 102, 105, 99]

/-- UTF-8 bytes of "c ap traffic". -/
def c_ap_traffic_label : List Nat := [99, 32, 97, 112, 32, 116, 114, 97, 102, 102, 105, 99]

/-- UTF-8 bytes of "finished". -/
def finished_label : List Nat := [102, 105, 110, 105, 115, 104, 101, 100]

/-- UTF-8 bytes of "key". -/
def key_label : List Nat := [107, 101, 121]

/-- UTF-8 bytes of "iv". -/
def iv_label : List Nat := [105, 118]

/-- `HkdfLabel` from src/key-schedule.rs: output length (a `u16` in the
source), label bytes (without the "tls13 " prefix), and context bytes. -/
structure HkdfLabel where
  length : Nat
  label : List Nat
  context : List Nat
  deriving Repr, DecidableEq

/-- `HkdfLabel::to_bytes`: u16 big-endian length, one byte holding
`("tls13 " + label).len() as u8`, the prefixed label bytes, one byte
holding `context.len() as u8`, the context bytes.  The `as u8` casts of
the source truncate modulo 256. -/
def HkdfLabel.to_bytes (l : HkdfLabel) : List Nat :=
  u16_be l.length ++ [(tls13_bytes ++ l.label).length % 256] ++
    (tls13_bytes ++ l.label) ++ [l.context.length % 256] ++ l.context

/-- The type of the abstract HMAC-SHA256 primitive: key, then message.
`ring`'s implementation is outside this repository. -/
abbrev Hmac := List Nat → List Nat → List Nat

/-- HKDF-Extract (RFC 5869): `HKDF::extract(ikm, salt)` in the source
calls `Salt::new(salt).extract(ikm)`, i.e. `HMAC(salt, ikm)`. -/
def hkdf_extract (hmac : Hmac) (ikm salt : List Nat) : List Nat :=
  hmac salt ikm

/-- `HKDF::new(secret)` wraps the bytes directly as a PRK
(`Prk::new_less_safe`). -/
def hkdf_new (secret : List Nat) : List Nat := secret

/-- The block stream of HKDF-Expand (RFC 5869), as implemented by `ring`:
`T(i+1) = HMAC(prk, T(i) ++ info ++ [i+1])`.  Returns the last block and
the accumulated output for `n` blocks. -/
def hkdf_t (hmac : Hmac) (prk info : List Nat) : Nat → List Nat × List Nat
  | 0 => ([], [])
  | n + 1 =>
    let prev := hkdf_t hmac prk info n
    let t := hmac prk (prev.1 ++ info ++ [(n + 1) % 256])
    (t, prev.2 ++ t)

/-- HKDF-Expand producing `len` output bytes (hash length 32). -/
def hkdf_expand (hmac : Hmac) (prk info : List Nat) (len : Nat) : List Nat :=
  List.take len (hkdf_t hmac prk info ((len + 31) / 32)).2

/-- `HKDF::expand_label`: expands with the encoded label as the `info`
and produces `label.length` bytes.  `ring`'s `Prk::expand` rejects
output lengths above `255 * 32`. -/
def expand_label (hmac : Hmac) (prk : List Nat) (l : HkdfLabel) : Option (List Nat) :=
  if l.length ≤ 255 * 32 then some (hkdf_expand hmac prk l.to_bytes l.length)
  else none

/-- The spec's encoding of the HKDF `info`:
`u16_be(length) ++ u8(len(label)) ++ label ++ u8(len(context)) ++ context`
with the label prefixed by "tls13 ". -/
def spec_hkdf_info (len : Nat) (label context : List Nat) : List Nat :=
  u16_be len ++ [(tls13_bytes ++ label).length] ++ (tls13_bytes ++ label) ++
    [context.length] ++ context

/-- The spec's HKDF-Expand-Label: HKDF-Expand with the encoded label as
`info`, producing `len` bytes. -/
def spec_expand_label (hmac : Hmac) (secret label context : List Nat) (len : Nat) :
    List Nat :=
  hkdf_expand hmac secret (spec_hkdf_info len label context) len

lemma hkdf_t_acc_length (hmac : Hmac) (hlen : ∀ k m, (hmac k m).length = 32)
    (prk info : List Nat) : ∀ n, (hkdf_t hmac prk info n).2.length = 32 * n := by
  intro n
  induction n with
  | zero => rfl
  | succ m ih =>
    simp only [hkdf_t, List.length_append, ih, hlen]
    ring

lemma hkdf_expand_length (hmac : Hmac) (hlen : ∀ k m, (hmac k m).length = 32)
    (prk info : List Nat) (len : Nat) :
    (hkdf_expand hmac prk info len).length = len := by
  simp only [hkdf_expand, List.length_take, hkdf_t_acc_length hmac hlen]
  omega

lemma to_bytes_eq_spec (len : Nat) (label context : List Nat)
    (hlab : (tls13_bytes ++ label).length < 256) (hctx : context.length < 256) :
    (HkdfLabel.mk len label context).to_bytes = spec_hkdf_info len label context := by
  simp only [HkdfLabel.to_bytes, spec_hkdf_info]
  rw [Nat.mod_eq_of_lt hlab, Nat.mod_eq_of_lt hctx]

/-- Claim C2: `HkdfLabel::to_bytes` is exactly the TLS `info` encoding
(u16 length, u8 prefixed-label length, prefixed label, u8 context
length, context), and `expand_label` uses exactly that encoding as the
HKDF info, producing exactly `length` output bytes. -/
theorem hkdf_label_encoding (len : Nat) (label context prk : List Nat) (hmac : Hmac)
    (hlen : ∀ k m, (hmac k m).length = 32)
    (hlab : (tls13_bytes ++ label).length < 256) (hctx : context.length < 256)
    (hout : len ≤ 255 * 32) :
    (HkdfLabel.mk len label context).to_bytes = spec_hkdf_info len label context
    ∧ expand_label hmac prk (HkdfLabel.mk len label context) =
        some (hkdf_expand hmac prk (spec_hkdf_info len label context) len)
    ∧ ∀ out, expand_label hmac prk (HkdfLabel.mk len label context) = some out →
        out.length = len := by
  have henc := to_bytes_eq_spec len label context hlab hctx
  have hexp : expand_label hmac prk (HkdfLabel.mk len label context) =
      some (hkdf_expand hmac prk (spec_hkdf_info len label context) len) := by
    simp [expand_label, hout, henc]
  refine ⟨henc, hexp, ?_⟩
  intro out hsome
  rw [hexp] at hsome
  cases hsome
  exact hkdf_expand_length hmac hlen prk _ len

/-- A concrete stand-in HMAC: constant 32-byte output. -/
def hmac_stub : Hmac := fun _ _ => List.replicate 32 0

theorem hkdf_label_encoding_witness :
    (∀ k m, (hmac_stub k m).length = 32)
    ∧ (tls13_bytes ++ derived_label).length < 256
    ∧ ([] : List Nat).length < 256
    ∧ 32 ≤ 255 * 32
    ∧ (HkdfLabel.mk 32 derived_label []).to_bytes = spec_hkdf_info 32 derived_label []
    ∧ expand_label hmac_stub [] (HkdfLabel.mk 32 derived_label []) =
        some (hkdf_expand hmac_stub [] (spec_hkdf_info 32 derived_label []) 32) :=
  ⟨fun _ _ => rfl, by decide, by decide, by decide,
   (hkdf_label_encoding 32 derived_label [] [] hmac_stub (fun _ _ => rfl)
      (by decide) (by decide) (by decide)).1,
   (hkdf_label_encoding 32 derived_label [] [] hmac_stub (fun _ _ => rfl)
      (by decide) (by decide) (by decide)).2.1⟩

/-! ### Key-schedule states (src/key-schedule.rs) -/

/-- The type of the abstract SHA-256 digest primitive (`ring::digest`). -/
abbrev Hash := List Nat → List Nat

/-- 32 zero bytes (`[0u8; 32]`). -/
def zeros32 : List Nat := List.replicate 32 0

/-- `ApplicationKeySchedule`: the running transcript context is modelled
by the byte string fed to it so far. -/
structure ApplicationKeySchedule where
  server_application_traffic_secret : List Nat
  client_application_traffic_secret : List Nat
  server_write_key : List Nat
  server_write_iv : List Nat
  client_write_key : List Nat
  client_write_iv : List Nat
  transcript : List Nat
  read_seq_num : Nat
  write_seq_num : Nat
  deriving Repr, DecidableEq

/-- `HandshakeKeySchedule`.  `master_secret` holds the PRK bytes of the
`HKDF` struct field of the same name. -/
structure HandshakeKeySchedule where
  transcript : List Nat
  handshake_secret : List Nat
  master_secret : List Nat
  server_handshake_traffic_secret : List Nat
  client_handshake_traffic_secret : List Nat
  client_write_key : List Nat
  client_write_iv : List Nat
  server_write_key : List Nat
  server_write_iv : List Nat
  my_private_key : Option (List Nat)
  my_public_key : List Nat
  server_application_traffic_secret : List Nat
  client_application_traffic_secret : List Nat
  read_seq_num : Nat
  write_seq_num : Nat
  deriving Repr, DecidableEq

/-- `HandshakeKeySchedule::new`: the X25519 key pair generation is an
effect of `ring`'s RNG and is passed in; every secret starts empty, both
sequence counters start at 0, and `master_secret` is initialised to
`HKDF::extract(&[0u8; 32], &[0u8; 32])`. -/
def HandshakeKeySchedule.new (hmac : Hmac) (private_key public_key : List Nat) :
    HandshakeKeySchedule where
  transcript := []
  handshake_secret := []
  master_secret := hkdf_extract hmac zeros32 zeros32
  server_handshake_traffic_secret := []
  client_handshake_traffic_secret := []
  client_write_key := []
  client_write_iv := []
  server_write_key := []
  server_write_iv := []
  my_private_key := some private_key
  my_public_key := public_key
  server_application_traffic_secret := []
  client_application_traffic_secret := []
  read_seq_num := 0
  write_seq_num := 0

/-- `HandshakeKeySchedule::into_application_key_schedule`: fresh write
key (16) and IV (12) from each application traffic secret via the
"key"/"iv" labels, sequence counters reset to 0, transcript carried. -/
def HandshakeKeySchedule.into_application_key_schedule (hmac : Hmac)
    (ks : HandshakeKeySchedule) : Option ApplicationKeySchedule := do
  let app_write_key ← expand_label hmac
    (hkdf_new ks.client_application_traffic_secret) (HkdfLabel.mk 16 key_label [])
  let app_write_iv ← expand_label hmac
    (hkdf_new ks.client_application_traffic_secret) (HkdfLabel.mk 12 iv_label [])
  let app_read_key ← expand_label hmac
    (hkdf_new ks.server_application_traffic_secret) (HkdfLabel.mk 16 key_label [])
  let app_read_iv ← expand_label hmac
    (hkdf_new ks.server_application_traffic_secret) (HkdfLabel.mk 12 iv_label [])
  some
    { server_application_traffic_secret := ks.server_application_traffic_secret
      client_application_traffic_secret := ks.client_application_traffic_secret
      server_write_key := app_read_key
      server_write_iv := app_read_iv
      client_write_key := app_write_key
      client_write_iv := app_write_iv
      transcript := ks.transcript
      read_seq_num := 0
      write_seq_num := 0 }

/-- `derive_master_secret_and_traffic_secrets`: expand "derived" from
the stored PRK with the empty-string hash as context, extract with
IKM = 0^32 and the derived bytes as salt, then expand the two
application traffic secrets over the current transcript hash. -/
def HandshakeKeySchedule.derive_master_secret_and_traffic_secrets (hmac : Hmac)
    (hash : Hash) (ks : HandshakeKeySchedule) : Option HandshakeKeySchedule := do
  let empty_hash := hash []
  let derived_secret ← expand_label hmac ks.master_secret
    (HkdfLabel.mk 32 derived_label empty_hash)
  let transcript_hash := hash ks.transcript
  let prk := hkdf_extract hmac zeros32 derived_secret
  let server_app ← expand_label hmac prk
    (HkdfLabel.mk 32 s_ap_traffic_label transcript_hash)
  let client_app ← expand_label hmac prk
    (HkdfLabel.mk 32 c_ap_traffic_label transcript_hash)
  some
    { ks with
      server_application_traffic_secret := server_app
      client_application_traffic_secret := client_app
      master_secret := prk }

/-- `on_server_finished` delegates to
`derive_master_secret_and_traffic_secrets`. -/
def HandshakeKeySchedule.on_server_finished (hmac : Hmac) (hash : Hash)
    (ks : HandshakeKeySchedule) : Option HandshakeKeySchedule :=
  ks.derive_master_secret_and_traffic_secrets hmac hash

/-- The shared body of the trait's `get_verify_client_data`:
`finished_key = expand_label(HKDF::new(client_traffic_secret),
HkdfLabel(32, "finished", ""))`, then HMAC-SHA256 of the current
transcript hash under that key. -/
def get_verify_client_data_core (hmac : Hmac) (hash : Hash)
    (client_traffic_secret transcript : List Nat) : Option (List Nat) :=
  let digest := hash transcript
  (expand_label hmac (hkdf_new client_traffic_secret)
      (HkdfLabel.mk 32 finished_label [])).map
    (fun finished_key => hmac finished_key digest)

/-- `get_verify_client_data` on `HandshakeKeySchedule`, whose
`client_traffic_secret()` is the client handshake traffic secret. -/
def HandshakeKeySchedule.get_verify_client_data (hmac : Hmac) (hash : Hash)
    (ks : HandshakeKeySchedule) : Option (List Nat) :=
  get_verify_client_data_core hmac hash ks.client_handshake_traffic_secret ks.transcript

/-- `get_verify_client_data` on `ApplicationKeySchedule`, whose
`client_traffic_secret()` is the client application traffic secret. -/
def ApplicationKeySchedule.get_verify_client_data (hmac : Hmac) (hash : Hash)
    (ks : ApplicationKeySchedule) : Option (List Nat) :=
  get_verify_client_data_core hmac hash ks.client_application_traffic_secret ks.transcript

/-! ### Record cryptography (src/enc-dec.rs) -/

/-- Errors of the record encrypt/decrypt paths. -/
inductive CryptoErr where
  | emptyKey
  | badKeyLen
  | openFailed
  deriving Repr, DecidableEq

/-- An AEAD scheme together with the laws `ring`'s AES-128-GCM
guarantees: sealing yields a ciphertext of the plaintext's length plus a
16-byte tag, and opening a sealed pair under the same key, nonce and AAD
returns the plaintext. -/
structure AEAD where
  sealAead : List Nat → List Nat → List Nat → List Nat → List Nat × List Nat
  openAead : List Nat → List Nat → List Nat → List Nat → List Nat → Option (List Nat)
  seal_tag_len : ∀ k n a p, (sealAead k n a p).2.length = 16
  seal_ct_len : ∀ k n a p, (sealAead k n a p).1.length = p.length
  open_seal : ∀ k n a p, openAead k n a (sealAead k n a p).1 (sealAead k n a p).2 = some p

/-- The stateless body of `encrypt_tls_plaintext`: derive the nonce from
the write IV and sequence number, reject an empty key and (as
`UnboundKey::new` with AES-128-GCM does) a key that is not 16 bytes,
then seal with the 5-byte header as AAD, returning ciphertext and
detached tag. -/
def encrypt_core (A : AEAD) (key iv : List Nat) (seq_num : Nat)
    (hdr_buf tls_plaintext : List Nat) : Except CryptoErr (List Nat × List Nat) :=
  let nonce := derive_nonce iv seq_num
  if key = [] then .error .emptyKey
  else if key.length ≠ 16 then .error .badKeyLen
  else .ok (A.sealAead key nonce hdr_buf tls_plaintext)

/-- The stateless body of `decrypt_tls_encrypted`: derive the nonce from
the read IV and sequence number, reject an empty or non-16-byte key,
then open the ciphertext-plus-tag (`open_in_place` splits the trailing
16 bytes off and fails when the input is shorter than the tag). -/
def decrypt_core (A : AEAD) (key iv : List Nat) (seq_num : Nat)
    (hdr_buf content : List Nat) : Except CryptoErr (List Nat) :=
  let nonce := derive_nonce iv seq_num
  if key = [] then .error .emptyKey
  else if key.length ≠ 16 then .error .badKeyLen
  else if content.length < 16 then .error .openFailed
  else
    match A.openAead key nonce hdr_buf (content.take (content.length - 16))
        (content.drop (content.length - 16)) with
    | some pt => .ok pt
    | none => .error .openFailed

/-- `decrypt_tls_encrypted` on the handshake schedule: the read counter
is fetched and incremented first (`get_read_seq_num_and_incr`), then the
AEAD open is attempted with the server write key and IV.  The counter is
a `u64`, so the unchecked `+= 1` wraps modulo 2^64. -/
def HandshakeKeySchedule.decrypt_tls_encrypted (A : AEAD) (ks : HandshakeKeySchedule)
    (hdr_buf content : List Nat) :
    Except CryptoErr (List Nat) × HandshakeKeySchedule :=
  (decrypt_core A ks.server_write_key ks.server_write_iv ks.read_seq_num hdr_buf content,
   { ks with read_seq_num := (ks.read_seq_num + 1) % 2 ^ 64 })

/-- `encrypt_tls_plaintext` on the handshake schedule: the write counter
is fetched and incremented first, then the seal uses the client write
key and IV.  The `u64` counter wraps modulo 2^64. -/
def HandshakeKeySchedule.encrypt_tls_plaintext (A : AEAD) (ks : HandshakeKeySchedule)
    (hdr_buf tls_plaintext : List Nat) :
    Except CryptoErr (List Nat × List Nat) × HandshakeKeySchedule :=
  (encrypt_core A ks.client_write_key ks.client_write_iv ks.write_seq_num hdr_buf
     tls_plaintext,
   { ks with write_seq_num := (ks.write_seq_num + 1) % 2 ^ 64 })

/-- `decrypt_tls_encrypted` on the application schedule; the `u64` read
counter wraps modulo 2^64. -/
def ApplicationKeySchedule.decrypt_tls_encrypted (A : AEAD) (ks : ApplicationKeySchedule)
    (hdr_buf content : List Nat) :
    Except CryptoErr (List Nat) × ApplicationKeySchedule :=
  (decrypt_core A ks.server_write_key ks.server_write_iv ks.read_seq_num hdr_buf content,
   { ks with read_seq_num := (ks.read_seq_num + 1) % 2 ^ 64 })

/-- `encrypt_tls_plaintext` on the application schedule; the `u64` write
counter wraps modulo 2^64. -/
def ApplicationKeySchedule.encrypt_tls_plaintext (A : AEAD) (ks : ApplicationKeySchedule)
    (hdr_buf tls_plaintext : List Nat) :
    Except CryptoErr (List Nat × List Nat) × ApplicationKeySchedule :=
  (encrypt_core A ks.client_write_key ks.client_write_iv ks.write_seq_num hdr_buf
     tls_plaintext,
   { ks with write_seq_num := (ks.write_seq_num + 1) % 2 ^ 64 })

lemma finished_label_to_bytes :
    (HkdfLabel.mk 32 finished_label []).to_bytes = spec_hkdf_info 32 finished_label [] := by
  decide

/-- Claim C4: `get_verify_client_data` returns
`HMAC-SHA256(finished_key, transcript_hash_at_call_time)` with
`finished_key = HKDF-Expand-Label(client_traffic_secret, "finished",
empty context)` of length 32, where the client traffic secret is the
handshake one in the handshake phase and the application one in the
application phase. -/
theorem get_verify_client_data_correct (hmac : Hmac) (hash : Hash)
    (ks : HandshakeKeySchedule) (aks : ApplicationKeySchedule) :
    ks.get_verify_client_data hmac hash =
      some (hmac
        (spec_expand_label hmac ks.client_handshake_traffic_secret finished_label [] 32)
        (hash ks.transcript))
    ∧ aks.get_verify_client_data hmac hash =
      some (hmac
        (spec_expand_label hmac aks.client_application_traffic_secret finished_label [] 32)
        (hash aks.transcript)) := by
  constructor
  · simp [HandshakeKeySchedule.get_verify_client_data, get_verify_client_data_core,
      expand_label, hkdf_new, spec_expand_label, finished_label_to_bytes]
  · simp [ApplicationKeySchedule.get_verify_client_data, get_verify_client_data_core,
      expand_label, hkdf_new, spec_expand_label, finished_label_to_bytes]

/-- Claim C5 (amended): both sequence counters are 0 in a freshly
constructed `HandshakeKeySchedule` and are reset to 0 by
`into_application_key_schedule`; every encrypt or decrypt operation
steps the corresponding per-direction `u64` counter by exactly one
modulo 2^64 and leaves the opposite counter unchanged — in particular by
exactly one, hence strictly monotonically, as long as the incremented
counter stays below 2^64.  (The frozen claim's unconditional "by exactly
one" fails at the unguarded u64 wrap; see the counterexample.) -/
theorem seq_counters_monotone (hmac : Hmac) (A : AEAD) (priv pub : List Nat)
    (ks0 ks : HandshakeKeySchedule) (aks0 aks : ApplicationKeySchedule)
    (hdr pt ct : List Nat)
    (h : ks0.into_application_key_schedule hmac = some aks0) :
    (HandshakeKeySchedule.new hmac priv pub).read_seq_num = 0
    ∧ (HandshakeKeySchedule.new hmac priv pub).write_seq_num = 0
    ∧ aks0.read_seq_num = 0 ∧ aks0.write_seq_num = 0
    ∧ (ks.encrypt_tls_plaintext A hdr pt).2.write_seq_num = (ks.write_seq_num + 1) % 2 ^ 64
    ∧ (ks.encrypt_tls_plaintext A hdr pt).2.read_seq_num = ks.read_seq_num
    ∧ (ks.decrypt_tls_encrypted A hdr ct).2.read_seq_num = (ks.read_seq_num + 1) % 2 ^ 64
    ∧ (ks.decrypt_tls_encrypted A hdr ct).2.write_seq_num = ks.write_seq_num
    ∧ (aks.encrypt_tls_plaintext A hdr pt).2.write_seq_num = (aks.write_seq_num + 1) % 2 ^ 64
    ∧ (aks.encrypt_tls_plaintext A hdr pt).2.read_seq_num = aks.read_seq_num
    ∧ (aks.decrypt_tls_encrypted A hdr ct).2.read_seq_num = (aks.read_seq_num + 1) % 2 ^ 64
    ∧ (aks.decrypt_tls_encrypted A hdr ct).2.write_seq_num = aks.write_seq_num
    ∧ (ks.write_seq_num + 1 < 2 ^ 64 →
        (ks.encrypt_tls_plaintext A hdr pt).2.write_seq_num = ks.write_seq_num + 1)
    ∧ (ks.read_seq_num + 1 < 2 ^ 64 →
        (ks.decrypt_tls_encrypted A hdr ct).2.read_seq_num = ks.read_seq_num + 1)
    ∧ (aks.write_seq_num + 1 < 2 ^ 64 →
        (aks.encrypt_tls_plaintext A hdr pt).2.write_seq_num = aks.write_seq_num + 1)
    ∧ (aks.read_seq_num + 1 < 2 ^ 64 →
        (aks.decrypt_tls_encrypted A hdr ct).2.read_seq_num = aks.read_seq_num + 1) := by
  have haks : aks0.read_seq_num = 0 ∧ aks0.write_seq_num = 0 := by
    simp only [HandshakeKeySchedule.into_application_key_schedule, expand_label,
      hkdf_new] at h
    norm_num at h
    rw [← h]
    exact ⟨rfl, rfl⟩
  exact ⟨rfl, rfl, haks.1, haks.2, rfl, rfl, rfl, rfl, rfl, rfl, rfl, rfl,
    fun hlt => Nat.mod_eq_of_lt hlt, fun hlt => Nat.mod_eq_of_lt hlt,
    fun hlt => Nat.mod_eq_of_lt hlt, fun hlt => Nat.mod_eq_of_lt hlt⟩

/-- Claim C10 (amended): `decrypt_tls_encrypted` steps the read
sequence counter before attempting the AEAD open, so even when the call
returns an error the counter has been stepped — by exactly one modulo
2^64, and by exactly one whenever the incremented `u64` counter stays
below 2^64 — on both schedules: a failed decrypt is not atomic with
respect to the key-schedule state.  (The frozen claim's unconditional
"advanced by one" fails at the unguarded u64 wrap; see the
counterexample.) -/
theorem decrypt_error_advances_counter (A : AEAD) (ks : HandshakeKeySchedule)
    (aks : ApplicationKeySchedule) (hdr ct hdr2 ct2 : List Nat) (e e2 : CryptoErr)
    (h : (ks.decrypt_tls_encrypted A hdr ct).1 = Except.error e)
    (h2 : (aks.decrypt_tls_encrypted A hdr2 ct2).1 = Except.error e2) :
    (ks.decrypt_tls_encrypted A hdr ct).2.read_seq_num = (ks.read_seq_num + 1) % 2 ^ 64
    ∧ (aks.decrypt_tls_encrypted A hdr2 ct2).2.read_seq_num = (aks.read_seq_num + 1) % 2 ^ 64
    ∧ (ks.read_seq_num + 1 < 2 ^ 64 →
        (ks.decrypt_tls_encrypted A hdr ct).2.read_seq_num = ks.read_seq_num + 1)
    ∧ (aks.read_seq_num + 1 < 2 ^ 64 →
        (aks.decrypt_tls_encrypted A hdr2 ct2).2.read_seq_num = aks.read_seq_num + 1) :=
  ⟨rfl, rfl, fun hlt => Nat.mod_eq_of_lt hlt, fun hlt => Nat.mod_eq_of_lt hlt⟩

/-- Claim C6: sealing a plaintext of at most 2^14 + 256 bytes and then
opening the ciphertext plus tag with the same key and IV, matching
sequence counters and the same header as AAD returns the plaintext. -/
theorem encrypt_decrypt_roundtrip (A : AEAD) (stE stD : HandshakeKeySchedule)
    (hdr pt : List Nat) (hkey : stE.client_write_key.length = 16)
    (hpt : pt.length ≤ 2 ^ 14 + 256)
    (hk : stD.server_write_key = stE.client_write_key)
    (hiv : stD.server_write_iv = stE.client_write_iv)
    (hseq : stD.read_seq_num = stE.write_seq_num) :
    ∃ ct tag, (stE.encrypt_tls_plaintext A hdr pt).1 = Except.ok (ct, tag)
      ∧ (stD.decrypt_tls_encrypted A hdr (ct ++ tag)).1 = Except.ok pt := by
  set k := stE.client_write_key with hk_def
  set nonce := derive_nonce stE.client_write_iv stE.write_seq_num with hnonce_def
  set ct := (A.sealAead k nonce hdr pt).1 with hct_def
  set tag := (A.sealAead k nonce hdr pt).2 with htag_def
  have hne : ¬ k = [] := by
    intro hnil
    rw [hnil] at hkey
    simp at hkey
  have hctlen : ct.length = pt.length := A.seal_ct_len k nonce hdr pt
  have htaglen : tag.length = 16 := A.seal_tag_len k nonce hdr pt
  refine ⟨ct, tag, ?_, ?_⟩
  · simp only [HandshakeKeySchedule.encrypt_tls_plaintext, encrypt_core]
    rw [if_neg hne, if_neg (by rw [hkey]; trivial)]
  · simp only [HandshakeKeySchedule.decrypt_tls_encrypted, decrypt_core, hk, hiv, hseq,
      ← hnonce_def]
    rw [if_neg hne, if_neg (by rw [hkey]; trivial)]
    have hlen : (ct ++ tag).length = pt.length + 16 := by
      rw [List.length_append, hctlen, htaglen]
    have hnotlt : ¬ (ct ++ tag).length < 16 := by omega
    rw [if_neg hnotlt]
    have hsub : (ct ++ tag).length - 16 = ct.length := by omega
    rw [hsub, List.take_left, List.drop_left, hct_def, htag_def, A.open_seal]

/-- A concrete stand-in AEAD satisfying the laws: the ciphertext is the
plaintext and the tag is sixteen zero bytes. -/
def aead_stub : AEAD where
  sealAead := fun _ _ _ p => (p, List.replicate 16 0)
  openAead := fun _ _ _ c t => if t = List.replicate 16 0 then some c else none
  seal_tag_len := fun _ _ _ _ => rfl
  seal_ct_len := fun _ _ _ _ => rfl
  open_seal := fun _ _ _ _ => by simp

/-- A concrete handshake-phase state with 16-byte keys and 12-byte IVs,
used to evaluate the theorems on explicit inputs. -/
def hs_sample : HandshakeKeySchedule where
  transcript := []
  handshake_secret := []
  master_secret := []
  server_handshake_traffic_secret := []
  client_handshake_traffic_secret := []
  client_write_key := List.replicate 16 1
  client_write_iv := List.replicate 12 2
  server_write_key := List.replicate 16 1
  server_write_iv := List.replicate 12 2
  my_private_key := none
  my_public_key := []
  server_application_traffic_secret := List.replicate 32 3
  client_application_traffic_secret := List.replicate 32 4
  read_seq_num := 0
  write_seq_num := 0

/-- The application-phase state that `into_application_key_schedule`
derives from `hs_sample` under `hmac_stub`. -/
def app_sample : ApplicationKeySchedule where
  server_application_traffic_secret := List.replicate 32 3
  client_application_traffic_secret := List.replicate 32 4
  server_write_key := List.replicate 16 0
  server_write_iv := List.replicate 12 0
  client_write_key := List.replicate 16 0
  client_write_iv := List.replicate 12 0
  transcript := []
  read_seq_num := 0
  write_seq_num := 0

/-- An application-phase state with empty keys, on which decryption
fails. -/
def app_empty : ApplicationKeySchedule where
  server_application_traffic_secret := []
  client_application_traffic_secret := []
  server_write_key := []
  server_write_iv := []
  client_write_key := []
  client_write_iv := []
  transcript := []
  read_seq_num := 0
  write_seq_num := 0

theorem seq_counters_monotone_witness :
    hs_sample.into_application_key_schedule hmac_stub = some app_sample
    ∧ app_sample.read_seq_num = 0 ∧ app_sample.write_seq_num = 0
    ∧ (hs_sample.encrypt_tls_plaintext aead_stub [] []).2.write_seq_num =
        hs_sample.write_seq_num + 1 := by
  have H := seq_counters_monotone hmac_stub aead_stub [] [] hs_sample hs_sample
    app_sample app_sample [] [] [] (by decide)
  exact ⟨by decide, H.2.2.1, H.2.2.2.1,
    H.2.2.2.2.2.2.2.2.2.2.2.2.1 (by decide)⟩

theorem decrypt_error_advances_counter_witness :
    ((HandshakeKeySchedule.new hmac_stub [] []).decrypt_tls_encrypted aead_stub [] []).1 =
      Except.error CryptoErr.emptyKey
    ∧ (app_empty.decrypt_tls_encrypted aead_stub [] []).1 = Except.error CryptoErr.emptyKey
    ∧ ((HandshakeKeySchedule.new hmac_stub [] []).decrypt_tls_encrypted aead_stub [] []).2.read_seq_num =
        (HandshakeKeySchedule.new hmac_stub [] []).read_seq_num + 1
    ∧ (app_empty.decrypt_tls_encrypted aead_stub [] []).2.read_seq_num =
        app_empty.read_seq_num + 1 := by
  have H := decrypt_error_advances_counter aead_stub (HandshakeKeySchedule.new hmac_stub [] [])
    app_empty [] [] [] [] CryptoErr.emptyKey CryptoErr.emptyKey rfl rfl
  exact ⟨rfl, rfl, H.2.2.1 (by decide), H.2.2.2 (by decide)⟩

/-- `hs_sample` with both `u64` counters at `u64::MAX`
(2^64 - 1 = 18446744073709551615). -/
def hs_wrap : HandshakeKeySchedule :=
  { hs_sample with
    read_seq_num := 18446744073709551615
    write_seq_num := 18446744073709551615 }

/-- `app_empty` with the `u64` read counter at `u64::MAX`. -/
def app_wrap : ApplicationKeySchedule :=
  { app_empty with read_seq_num := 18446744073709551615 }

/-- Counterexample to claim C5 as frozen: at a write counter of
`u64::MAX` the source's unchecked `+= 1` wraps, so this encrypt
operation does not increment the counter by exactly one (it returns it
to 0) and strict monotonicity breaks. -/
theorem seq_counter_wrap_counterexample :
    (hs_wrap.encrypt_tls_plaintext aead_stub [] []).2.write_seq_num = 0
    ∧ ¬ (hs_wrap.encrypt_tls_plaintext aead_stub [] []).2.write_seq_num =
        hs_wrap.write_seq_num + 1 :=
  ⟨by decide, by decide⟩

/-- Counterexample to claim C10 as frozen: at a read counter of
`u64::MAX` a failing decrypt (empty key) wraps the counter to 0 rather
than advancing it by one. -/
theorem decrypt_error_wrap_counterexample :
    (app_wrap.decrypt_tls_encrypted aead_stub [] []).1 = Except.error CryptoErr.emptyKey
    ∧ (app_wrap.decrypt_tls_encrypted aead_stub [] []).2.read_seq_num = 0
    ∧ ¬ (app_wrap.decrypt_tls_encrypted aead_stub [] []).2.read_seq_num =
        app_wrap.read_seq_num + 1 :=
  ⟨rfl, by decide, by decide⟩

theorem encrypt_decrypt_roundtrip_witness :
    hs_sample.client_write_key.length = 16
    ∧ ∃ ct tag,
        (hs_sample.encrypt_tls_plaintext aead_stub [23, 3, 3, 0, 21] [1, 2, 3, 4, 5]).1 =
          Except.ok (ct, tag)
        ∧ (hs_sample.decrypt_tls_encrypted aead_stub [23, 3, 3, 0, 21] (ct ++ tag)).1 =
            Except.ok [1, 2, 3, 4, 5] :=
  ⟨by decide,
   encrypt_decrypt_roundtrip aead_stub hs_sample hs_sample [23, 3, 3, 0, 21]
     [1, 2, 3, 4, 5] (by decide) (by decide) (by decide) (by decide) (by decide)⟩

/-! ### Handshake driver (src/main.rs) -/

/-- A parsed handshake message: type byte and raw body. -/
structure HsMsg where
  msg_type : Nat
  body : List Nat
  deriving Repr, DecidableEq

/-- Model of `tls_parser::parse_tls_message_handshake` for the message
types the proofs exercise: one type byte, a 24-bit big-endian length,
`len` body bytes.  HelloRequest (type 0) carries an empty body; Finished
(type 20) carries its raw verify data.  Other types are modelled as
parse failures (an under-approximation of the external parser, sound for
every property conditioned on a successful parse). -/
def parse_tls_message_handshake (p : List Nat) : Option (HsMsg × List Nat) :=
  match p with
  | t :: l1 :: l2 :: l3 :: rest =>
    let len := l1 * 65536 + l2 * 256 + l3
    if rest.length < len then none
    else if t = 0 then (if len = 0 then some (HsMsg.mk 0 [], rest) else none)
    else if t = 20 then some (HsMsg.mk 20 (rest.take len), rest.drop len)
    else none
  | _ => none

/-- Errors of the driver's blob processing. -/
inductive DriverError where
  | parseError
  | protocolError
  | cryptoError
  | sliceUnderflow
  deriving Repr, DecidableEq

/-- `parse_tls_extensions`: parse one handshake message out of the
decrypted blob, return the remainder. -/
def parse_tls_extensions (blob : List Nat) : Except DriverError (List Nat) :=
  match parse_tls_message_handshake blob with
  | none => .error .parseError
  | some (_, rest) => .ok rest

/-- `process_server_cert`: parse one message, flag CertificateRequest
(type 13); if flagged parse the Certificate separately, otherwise reuse
the first message; then parse the CertificateVerify message. -/
def process_server_cert (p : List Nat) : Except DriverError (Bool × List Nat) :=
  match parse_tls_message_handshake p with
  | none => .error .parseError
  | some (m1, p1) =>
    let cert_requested := m1.msg_type = 13
    match (if cert_requested then parse_tls_message_handshake p1 else some (m1, p1)) with
    | none => .error .parseError
    | some (_, p2) =>
      match parse_tls_message_handshake p2 with
      | none => .error .parseError
      | some (_, p3) => .ok (cert_requested, p3)

/-- `process_finished`: parse the next message and require Finished;
then evaluate `blob[..blob.len() - 17]`, whose usize subtraction panics
when the blob is shorter than 17 bytes (modelled as `sliceUnderflow`);
append that slice to the transcript, run `on_server_finished`, consume
the trailing 17 bytes of the remainder and require it empty. -/
def process_finished (hmac : Hmac) (hash : Hash) (p : List Nat)
    (ks : HandshakeKeySchedule) (blob : List Nat) :
    Except DriverError HandshakeKeySchedule :=
  match parse_tls_message_handshake p with
  | none => .error .parseError
  | some (msg, rest) =>
    if msg.msg_type = 20 then
      if blob.length < 17 then .error .sliceUnderflow
      else
        match HandshakeKeySchedule.on_server_finished hmac hash
            { ks with transcript := ks.transcript ++ blob.take (blob.length - 17) } with
        | none => .error .cryptoError
        | some ks2 =>
          if rest.length < 17 then .error .parseError
          else if rest.drop 17 = [] then .ok ks2 else .error .protocolError
    else .error .protocolError

/-- The driver's handling of the single decrypted server flight
(`start_handshake` lines 130-132): `parse_tls_extensions`, then
`process_server_cert`, then `process_finished` over the same blob. -/
def process_encrypted_flight (hmac : Hmac) (hash : Hash) (ks : HandshakeKeySchedule)
    (blob : List Nat) : Except DriverError HandshakeKeySchedule := do
  let p ← parse_tls_extensions blob
  let (_, p2) ← process_server_cert p
  process_finished hmac hash p2 ks blob

/-- `send_handshake_tls_message`: append the Handshake content-type byte
(22) to the serialized message, build the outer record header with
content_type ApplicationData (23), legacy version TLS 1.2 (03 03) and
length `(inner.len() + MAX_TAG_LEN) as u16`, encrypt with that header as
AAD, emit header ++ ciphertext ++ tag, and append the plain serialized
message to the transcript. -/
def send_handshake_tls_message (A : AEAD) (ks : HandshakeKeySchedule)
    (tls_message_buf : List Nat) : Except CryptoErr (List Nat) × HandshakeKeySchedule :=
  let tls_encrypted_message_buf := tls_message_buf ++ [22]
  let len_field := (tls_encrypted_message_buf.length + 16) % 65536
  let hdr_buf := [23, 3, 3] ++ u16_be len_field
  match ks.encrypt_tls_plaintext A hdr_buf tls_encrypted_message_buf with
  | (.ok (encrypted, tag), ks1) =>
      (.ok (hdr_buf ++ encrypted ++ tag),
       { ks1 with transcript := ks1.transcript ++ tls_message_buf })
  | (.error e, ks1) => (.error e, ks1)

lemma expand_label_32 (hmac : Hmac) (prk : List Nat) (label context : List Nat) :
    expand_label hmac prk (HkdfLabel.mk 32 label context) =
      some (hkdf_expand hmac prk (HkdfLabel.mk 32 label context).to_bytes 32) := by
  simp [expand_label]

/-- Claim C3: when `process_finished` succeeds it has appended exactly
`blob[..blob.len()-17]` to the transcript and derived the application
traffic secrets as
`Expand-Label(Extract(ikm 0^32, salt = Expand-Label(PRK_hs, "derived",
SHA-256(""))), "s ap traffic" / "c ap traffic", transcript_hash)`,
each 32 bytes, where `PRK_hs` is the PRK stored in `master_secret`. -/
theorem process_finished_correct (hmac : Hmac) (hash : Hash)
    (hmac_len : ∀ k m, (hmac k m).length = 32)
    (hash_len : ∀ m, (hash m).length = 32)
    (p blob : List Nat) (ks ks2 : HandshakeKeySchedule)
    (h : process_finished hmac hash p ks blob = Except.ok ks2) :
    ks2.transcript = ks.transcript ++ blob.take (blob.length - 17)
    ∧ ks2.server_application_traffic_secret =
        spec_expand_label hmac
          (hkdf_extract hmac zeros32
            (spec_expand_label hmac ks.master_secret derived_label (hash []) 32))
          s_ap_traffic_label (hash (ks.transcript ++ blob.take (blob.length - 17))) 32
    ∧ ks2.client_application_traffic_secret =
        spec_expand_label hmac
          (hkdf_extract hmac zeros32
            (spec_expand_label hmac ks.master_secret derived_label (hash []) 32))
          c_ap_traffic_label (hash (ks.transcript ++ blob.take (blob.length - 17))) 32
    ∧ ks2.server_application_traffic_secret.length = 32
    ∧ ks2.client_application_traffic_secret.length = 32 := by
  rw [process_finished] at h
  cases hp : parse_tls_message_handshake p with
  | none => rw [hp] at h; simp at h
  | some pr =>
    obtain ⟨msg, rest⟩ := pr
    rw [hp] at h
    dsimp only at h
    by_cases ht : msg.msg_type = 20
    case neg => rw [if_neg ht] at h; simp at h
    case pos =>
      rw [if_pos ht] at h
      by_cases hb : blob.length < 17
      · rw [if_pos hb] at h; simp at h
      · rw [if_neg hb] at h
        cases hos : HandshakeKeySchedule.on_server_finished hmac hash
            { ks with transcript := ks.transcript ++ blob.take (blob.length - 17) } with
        | none => rw [hos] at h; simp at h
        | some ks3 =>
          rw [hos] at h
          dsimp only at h
          by_cases hr : rest.length < 17
          · rw [if_pos hr] at h; simp at h
          · rw [if_neg hr] at h
            by_cases he : rest.drop 17 = []
            case neg => rw [if_neg he] at h; simp at h
            case pos =>
              rw [if_pos he] at h
              injection h with h
              subst h
              rw [HandshakeKeySchedule.on_server_finished,
                HandshakeKeySchedule.derive_master_secret_and_traffic_secrets] at hos
              simp only [expand_label_32, Option.bind_eq_bind, Option.some_bind,
                Option.some.injEq] at hos
              have hd : (HkdfLabel.mk 32 derived_label (hash [])).to_bytes =
                  spec_hkdf_info 32 derived_label (hash []) :=
                to_bytes_eq_spec 32 derived_label (hash []) (by decide)
                  (by rw [hash_len]; omega)
              have hs : ∀ th : List Nat, th.length = 32 →
                  (HkdfLabel.mk 32 s_ap_traffic_label th).to_bytes =
                    spec_hkdf_info 32 s_ap_traffic_label th := by
                intro th hth
                exact to_bytes_eq_spec 32 s_ap_traffic_label th (by decide)
                  (by rw [hth]; omega)
              have hc : ∀ th : List Nat, th.length = 32 →
                  (HkdfLabel.mk 32 c_ap_traffic_label th).to_bytes =
                    spec_hkdf_info 32 c_ap_traffic_label th := by
                intro th hth
                exact to_bytes_eq_spec 32 c_ap_traffic_label th (by decide)
                  (by rw [hth]; omega)
              rw [← hos]
              refine ⟨rfl, ?_, ?_, ?_, ?_⟩
              · simp only [spec_expand_label, ← hd, ← hs _ (hash_len _)]
              · simp only [spec_expand_label, ← hd, ← hc _ (hash_len _)]
              · exact hkdf_expand_length hmac hmac_len _ _ 32
              · exact hkdf_expand_length hmac hmac_len _ _ 32

/-- A concrete stand-in SHA-256: constant 32-byte output. -/
def hash_stub : Hash := fun _ => List.replicate 32 0

theorem process_finished_correct_witness :
    (∀ k m, (hmac_stub k m).length = 32)
    ∧ (∀ m, (hash_stub m).length = 32)
    ∧ (∃ ks2, process_finished hmac_stub hash_stub
        ([20, 0, 0, 0] ++ List.replicate 17 0) hs_sample (List.replicate 17 0) =
          Except.ok ks2)
    ∧ ∀ ks2, process_finished hmac_stub hash_stub
        ([20, 0, 0, 0] ++ List.replicate 17 0) hs_sample (List.replicate 17 0) =
          Except.ok ks2 →
        ks2.transcript = hs_sample.transcript ++
          (List.replicate 17 0).take ((List.replicate 17 0).length - 17) :=
  ⟨fun _ _ => rfl, fun _ => rfl, ⟨_, rfl⟩,
   fun ks2 h =>
    (process_finished_correct hmac_stub hash_stub (fun _ _ => rfl) (fun _ => rfl)
      ([20, 0, 0, 0] ++ List.replicate 17 0) (List.replicate 17 0) hs_sample ks2 h).1⟩

/-- Claim C7: every encrypted client handshake message goes out as a
record whose header has content_type ApplicationData (23), legacy
version TLS 1.2 (03 03) and length `inner_length + 1 + 16`; the sealed
payload is the serialized message with one Handshake content-type byte
(22) appended, that 5-byte header is the AEAD associated data, and the
16-byte tag follows the ciphertext. -/
theorem send_handshake_message_format (A : AEAD) (ks : HandshakeKeySchedule)
    (msg : List Nat) (hkey : ks.client_write_key.length = 16)
    (hlen : msg.length + 17 < 65536) :
    ∃ ct tag,
      (send_handshake_tls_message A ks msg).1 =
        Except.ok (([23, 3, 3] ++ u16_be (msg.length + 1 + 16)) ++ ct ++ tag)
      ∧ (ct, tag) = A.sealAead ks.client_write_key
          (derive_nonce ks.client_write_iv ks.write_seq_num)
          ([23, 3, 3] ++ u16_be (msg.length + 1 + 16)) (msg ++ [22])
      ∧ ct.length = msg.length + 1 ∧ tag.length = 16 := by
  have hne : ¬ ks.client_write_key = [] := by
    intro hnil
    rw [hnil] at hkey
    simp at hkey
  have hmod : (msg ++ [22]).length + 16 = msg.length + 17 := by simp
  have hfield : ((msg ++ [22]).length + 16) % 65536 = msg.length + 1 + 16 := by
    rw [hmod, Nat.mod_eq_of_lt hlen]
  refine ⟨(A.sealAead ks.client_write_key
      (derive_nonce ks.client_write_iv ks.write_seq_num)
      ([23, 3, 3] ++ u16_be (msg.length + 1 + 16)) (msg ++ [22])).1,
    (A.sealAead ks.client_write_key
      (derive_nonce ks.client_write_iv ks.write_seq_num)
      ([23, 3, 3] ++ u16_be (msg.length + 1 + 16)) (msg ++ [22])).2, ?_, rfl, ?_,
    A.seal_tag_len _ _ _ _⟩
  · simp only [send_handshake_tls_message, HandshakeKeySchedule.encrypt_tls_plaintext,
      encrypt_core, hfield]
    rw [if_neg hne, if_neg (by rw [hkey]; trivial)]
  · rw [A.seal_ct_len]
    simp

theorem send_handshake_message_format_witness :
    hs_sample.client_write_key.length = 16
    ∧ (3 : Nat) + 17 < 65536
    ∧ ∃ ct tag,
        (send_handshake_tls_message aead_stub hs_sample [1, 2, 3]).1 =
          Except.ok (([23, 3, 3] ++ u16_be (3 + 1 + 16)) ++ ct ++ tag)
        ∧ ct.length = 3 + 1 ∧ tag.length = 16 :=
  ⟨by decide, by decide, by
    obtain ⟨ct, tag, h1, _, h3, h4⟩ :=
      send_handshake_message_format aead_stub hs_sample [1, 2, 3] (by decide) (by decide)
    exact ⟨ct, tag, h1, h3, h4⟩⟩

/-- The 16-byte decrypted blob that defeats claim C8: three HelloRequest
messages (type 0, length 0) followed by an empty Finished (type 20,
length 0). -/
def failing_blob : List Nat := [0, 0, 0, 0, 0, 0, 0, 0, 0, 0, 0, 0, 20, 0, 0, 0]

/-- Claim C8 (refuted): this 16-byte blob parses through
`parse_tls_extensions`, `process_server_cert` and the Finished match,
reaching the slice `blob[..blob.len() - 17]` whose usize subtraction
underflows: the driver panics instead of returning a ProtocolError. -/
theorem short_blob_hits_slice_underflow :
    failing_blob.length = 16
    ∧ process_encrypted_flight hmac_stub hash_stub hs_sample failing_blob =
        Except.error DriverError.sliceUnderflow :=
  ⟨rfl, rfl⟩

/-! ### CA issuer (src/server/src/main.rs) -/

/-- Signature algorithms the issuer uses. -/
inductive SigAlg where
  | rsaPssSha256
  | rsaPkcs1Sha256
  deriving Repr, DecidableEq

/-- A parsed PKCS#10 request: subject distinguished name (attribute
type/value pairs) and the DER-encoded SubjectPublicKeyInfo bytes. -/
structure CertReq where
  subject : List (String × String)
  public_key : List Nat
  deriving Repr, DecidableEq

/-- The TBS data `CertificateBuilder` is instantiated with in
`sign_csr`, together with the signing algorithm and key. -/
structure BuiltCert where
  serial : Nat
  validity_start : Nat
  validity_duration : Nat
  issuer : List (String × String)
  subject : List (String × String)
  public_key : List Nat
  key_agreement : Bool
  key_encipherment : Bool
  sig_alg : SigAlg
  signer_key : List Nat
  deriving Repr, DecidableEq

/-- The distinguished name pushed into the CA parameters by
`TestPKI::new`: organization "Sec-PoC-CA", common name "PoC CA". -/
def ca_distinguished_name : List (String × String) :=
  [("O", "Sec-PoC-CA"), ("CN", "PoC CA")]

/-- `TestPKI`, reduced to what `sign_csr` reads: the CA key and the
subject of the self-signed CA certificate (which `rcgen` sets to the
distinguished name of the parameters). -/
structure TestPKI where
  ca_key : List Nat
  ca_cert_subject : List (String × String)
  deriving Repr, DecidableEq

/-- `TestPKI::new` (key generation and PEM persistence are file-system
effects; the key bytes are passed in). -/
def TestPKI.new (ca_key : List Nat) : TestPKI where
  ca_key := ca_key
  ca_cert_subject := ca_distinguished_name

/-- `TestPKI::sign_csr`: build a leaf certificate with issuer taken from
the CA certificate's subject, serial number 1, validity from now for 365
days, subject and SubjectPublicKeyInfo copied from the CSR, signed with
RSASSA-PSS over SHA-256 under the CA key. -/
def TestPKI.sign_csr (pki : TestPKI) (cert_req : CertReq) (now : Nat) : BuiltCert :=
  let issuer := pki.ca_cert_subject
  { serial := 1
    validity_start := now
    validity_duration := 60 * 60 * 24 * 365
    issuer := issuer
    subject := cert_req.subject
    public_key := cert_req.public_key
    key_agreement := true
    key_encipherment := true
    sig_alg := SigAlg.rsaPssSha256
    signer_key := pki.ca_key }

/-- Claim C9: for every accepted CSR, `sign_csr` issues a leaf whose
serial is 1, whose validity starts now and lasts 365 days, whose subject
and SubjectPublicKeyInfo come from the CSR, whose issuer is the CA
subject (O=Sec-PoC-CA, CN=PoC CA), signed with RSASSA-PSS over SHA-256
under the CA key. -/
theorem sign_csr_correct (ca_key : List Nat) (cert_req : CertReq) (now : Nat) :
    ((TestPKI.new ca_key).sign_csr cert_req now).serial = 1
    ∧ ((TestPKI.new ca_key).sign_csr cert_req now).validity_start = now
    ∧ ((TestPKI.new ca_key).sign_csr cert_req now).validity_duration = 60 * 60 * 24 * 365
    ∧ ((TestPKI.new ca_key).sign_csr cert_req now).subject = cert_req.subject
    ∧ ((TestPKI.new ca_key).sign_csr cert_req now).public_key = cert_req.public_key
    ∧ ((TestPKI.new ca_key).sign_csr cert_req now).issuer =
        [("O", "Sec-PoC-CA"), ("CN", "PoC CA")]
    ∧ ((TestPKI.new ca_key).sign_csr cert_req now).sig_alg = SigAlg.rsaPssSha256
    ∧ ((TestPKI.new ca_key).sign_csr cert_req now).signer_key = ca_key :=
  ⟨rfl, rfl, rfl, rfl, rfl, rfl, rfl, rfl⟩

end SecPoc
